import Mathlib

/-!
Shallow embedding of the bounded-concurrency admission gate
(`src/core/safety-manager.js`, class `SafetyManager`) and proofs about it.

The JavaScript class is single-threaded with cooperative (promise-based)
concurrency, so it is embedded as a small-step transition system: the state
holds the gate's fields (`activeRequests`, `queue`, `isShuttingDown`,
`maxConcurrent`, `maxRequestTime`) together with the bookkeeping of every
call to `processWithTimeout` made so far, and each event is one of the
synchronous blocks the event loop can run:

  * `submit t`        — a fresh call to `processWithTimeout` (its synchronous
                        prefix: the shutdown check, the capacity check, and
                        either admission or enqueueing);
  * `timeoutFire rid` — the `setTimeout` callback of an admitted request,
                        runnable once the request's deadline has passed;
  * `opSettle rid ok` — the continuation after `await operation()` resolves
                        or rejects: `clearTimeout`, settle, and the
                        `finally` block (decrement + promotion);
  * `reenter rid`     — the `.then(() => this.processWithTimeout(...))`
                        continuation of a promoted waiter;
  * `shutdown`        — `initiateShutdown`;
  * `tick d`          — the wall clock advancing by `d` milliseconds.

Promises are modelled by reference: `PRef.waiter rid` is the promise created
when request `rid` is pushed onto the wait queue, `PRef.exec rid` is the
execution promise created when `rid` is admitted. They are distinct objects
in JavaScript and distinct constructors here, so the timeout handler's
`findIndex(req => req.resolve === resolve)` is the genuine comparison
against `PRef.exec rid`.
-/

/-- The terminal outcome delivered to the caller of `processWithTimeout`:
`success` (the operation's value), `failed` (the operation's own error,
propagated), `timedOut` (the `Operation timed out after ...ms` error) and
`gateClosed` (the `System is shutting down` error). -/
inductive Outcome where
  | success
  | failed
  | timedOut
  | gateClosed
deriving DecidableEq, Repr

/-- Where a single call to `processWithTimeout` currently stands.
`queued`: suspended on its wait-queue promise. `promoted`: that promise was
resolved, the `.then` re-entry has not run yet. `running`: admitted, the
operation and its timer are pending. `timedOutPending`: the timer fired
(the caller's promise is already rejected with the timeout error) but
`await operation()` has not settled yet, so the `finally` block is still to
come. `done o`: the call is fully finished with outcome `o`. -/
inductive Phase where
  | queued
  | promoted
  | running
  | timedOutPending
  | done (o : Outcome)
deriving DecidableEq, Repr

/-- A promise reference: the wait-queue promise of request `rid`, or the
execution promise created by `new Promise(async (resolve, reject) => ...)`
when `rid` is admitted. Distinct constructors model distinct function
objects, as compared by `===` in the source. -/
inductive PRef where
  | waiter (rid : Nat)
  | exec (rid : Nat)
deriving DecidableEq, Repr

/-- Per-request bookkeeping: its phase, the raw `timeoutMs` argument
(`none` models JavaScript `null`/omitted), the clock value at submission,
and — once admitted — the clock value at admission and the absolute
deadline of its `setTimeout` timer. -/
structure Req where
  phase : Phase
  timeoutMs : Option Nat
  submitTime : Nat
  admitTime : Option Nat
  deadline : Option Nat
deriving DecidableEq, Repr

/-- The whole system: the `SafetyManager` fields, the list of all requests
(request ids are indices into `reqs`), and the clock `now`. -/
structure Sys where
  activeRequests : Int
  queue : List PRef
  isShuttingDown : Bool
  maxConcurrent : Nat
  maxRequestTime : Nat
  reqs : List Req
  now : Nat
deriving DecidableEq, Repr

/-- The freshly constructed gate (`new SafetyManager()`), with the
configured capacity and default timeout. -/
def init (maxConcurrent maxRequestTime : Nat) : Sys :=
  { activeRequests := 0
    queue := []
    isShuttingDown := false
    maxConcurrent := maxConcurrent
    maxRequestTime := maxRequestTime
    reqs := []
    now := 0 }

/-- Models `const actualTimeout = timeoutMs || this.maxRequestTime`: JavaScript
`||` on a `number | null` argument substitutes the default for `null` and
for `0` (both falsy). -/
def actualTimeout (timeoutMs : Option Nat) (maxRequestTime : Nat) : Nat :=
  match timeoutMs with
  | none => maxRequestTime
  | some t => if t = 0 then maxRequestTime else t

/-- The events the event loop can run (see the module docstring). -/
inductive Event where
  | submit (timeoutMs : Option Nat)
  | timeoutFire (rid : Nat)
  | opSettle (rid : Nat) (success : Bool)
  | reenter (rid : Nat)
  | shutdown
  | tick (d : Nat)
deriving DecidableEq, Repr

/-- Models the timeout handler removal step
`const index = this.queue.findIndex(req => req.resolve === resolve);
if (index > -1) this.queue.splice(index, 1);`, the handler's
removal step, comparing each queue entry's `resolve` against the execution
promise's `resolve` of request `rid`. -/
def removeExec (q : List PRef) (rid : Nat) : List PRef :=
  match q.findIdx? (fun e => e == PRef.exec rid) with
  | some i => q.eraseIdx i
  | none => q

/-- Models rejecting a wait-queue entry with the GateClosed error:
rejecting settles the waiter's promise, which (the `.then` chain having no
rejection handler) delivers `GateClosed` to the caller; rejecting an
already settled promise is a no-op. -/
def rejectWaiter (reqs : List Req) (rid : Nat) : List Req :=
  match reqs[rid]? with
  | some r =>
      if r.phase = Phase.queued then
        reqs.set rid { r with phase := Phase.done Outcome.gateClosed }
      else reqs
  | none => reqs

/-- Models `nextRequest.resolve()` on a wait-queue entry: resolving the waiter's
promise schedules its `.then` re-entry; resolving an already settled
promise is a no-op. An `exec` reference never occurs in the queue
(invariant `WF`), so resolving one is modelled as a no-op. -/
def resolveWaiterRef (reqs : List Req) (e : PRef) : List Req :=
  match e with
  | PRef.waiter rid =>
      match reqs[rid]? with
      | some r =>
          if r.phase = Phase.queued then
            reqs.set rid { r with phase := Phase.promoted }
          else reqs
      | none => reqs
  | PRef.exec _ => reqs

/-- Models the `while` drain loop of `initiateShutdown`: shift each entry
off the queue, head first, and reject it with the GateClosed error. An
`exec` reference never occurs in the queue (invariant `WF`), so rejecting
one is modelled as a no-op. -/
def drainReject (reqs : List Req) (q : List PRef) : List Req :=
  match q with
  | [] => reqs
  | PRef.waiter rid :: rest => drainReject (rejectWaiter reqs rid) rest
  | PRef.exec _ :: rest => drainReject reqs rest

/-- Models the promotion step at the end of the `finally` block:
`if (this.queue.length > 0)` shift the head of the queue and resolve
it. -/
def promoteHead (s : Sys) : Sys :=
  match s.queue with
  | [] => s
  | e :: rest => { s with queue := rest, reqs := resolveWaiterRef s.reqs e }

/-- One step of the event loop; `none` when the event is not enabled in
state `s` (no such request, wrong phase, or timer not yet due). Each
branch is the direct translation of one synchronous block of
`processWithTimeout` / `initiateShutdown`. -/
def step (s : Sys) (e : Event) : Option Sys :=
  match e with
  | Event.submit t =>
      let rid := s.reqs.length
      if s.isShuttingDown then
        some { s with reqs := s.reqs ++ [{ phase := Phase.done Outcome.gateClosed,
                                           timeoutMs := t, submitTime := s.now,
                                           admitTime := none, deadline := none }] }
      else if (s.maxConcurrent : Int) ≤ s.activeRequests then
        some { s with reqs := s.reqs ++ [{ phase := Phase.queued, timeoutMs := t,
                                           submitTime := s.now,
                                           admitTime := none, deadline := none }],
                      queue := s.queue ++ [PRef.waiter rid] }
      else
        some { s with reqs := s.reqs ++ [{ phase := Phase.running, timeoutMs := t,
                                           submitTime := s.now,
                                           admitTime := some s.now,
                                           deadline := some (s.now + actualTimeout t s.maxRequestTime) }],
                      activeRequests := s.activeRequests + 1 }
  | Event.timeoutFire rid =>
      match s.reqs[rid]? with
      | some r =>
          match r.phase, r.deadline with
          | Phase.running, some dl =>
              if dl ≤ s.now then
                some { s with reqs := s.reqs.set rid { r with phase := Phase.timedOutPending },
                              activeRequests := s.activeRequests - 1,
                              queue := removeExec s.queue rid }
              else none
          | _, _ => none
      | none => none
  | Event.opSettle rid success =>
      match s.reqs[rid]? with
      | some r =>
          match r.phase with
          | Phase.running =>
              let out := if success then Outcome.success else Outcome.failed
              some (promoteHead
                { s with reqs := s.reqs.set rid { r with phase := Phase.done out },
                         activeRequests := s.activeRequests - 1 })
          | Phase.timedOutPending =>
              some (promoteHead
                { s with reqs := s.reqs.set rid { r with phase := Phase.done Outcome.timedOut },
                         activeRequests := s.activeRequests - 1 })
          | _ => none
      | none => none
  | Event.reenter rid =>
      match s.reqs[rid]? with
      | some r =>
          match r.phase with
          | Phase.promoted =>
              if s.isShuttingDown then
                some { s with reqs := s.reqs.set rid { r with phase := Phase.done Outcome.gateClosed } }
              else if (s.maxConcurrent : Int) ≤ s.activeRequests then
                some { s with reqs := s.reqs.set rid { r with phase := Phase.queued },
                              queue := s.queue ++ [PRef.waiter rid] }
              else
                some { s with reqs := s.reqs.set rid
                                { r with phase := Phase.running,
                                         admitTime := some s.now,
                                         deadline := some (s.now + actualTimeout r.timeoutMs s.maxRequestTime) },
                              activeRequests := s.activeRequests + 1 }
          | _ => none
      | none => none
  | Event.shutdown =>
      some { s with isShuttingDown := true,
                    reqs := drainReject s.reqs s.queue,
                    queue := [] }
  | Event.tick d => some { s with now := s.now + d }

/-- Run a list of events from `s`; `none` if any event is not enabled. -/
def runTrace (s : Sys) : List Event → Option Sys
  | [] => some s
  | e :: evs => (step s e).bind (fun s' => runTrace s' evs)

/-- What the caller of request `rid` has received so far: `none` while the
caller's promise is pending, `some o` once it settled with outcome `o`
(a `timedOutPending` request's caller already holds the timeout
rejection). -/
def callerOutcome (s : Sys) (rid : Nat) : Option Outcome :=
  match s.reqs[rid]? with
  | some r =>
      match r.phase with
      | Phase.timedOutPending => some Outcome.timedOut
      | Phase.done o => some o
      | _ => none
  | none => none

/-- The record returned by `getStats()`. -/
structure Stats where
  activeRequests : Int
  queueSize : Nat
  isShuttingDown : Bool
  maxConcurrent : Nat
deriving DecidableEq, Repr

/-- Models `getStats()`, reading the four counters. -/
def getStats (s : Sys) : Stats :=
  { activeRequests := s.activeRequests
    queueSize := s.queue.length
    isShuttingDown := s.isShuttingDown
    maxConcurrent := s.maxConcurrent }

/-- The `getStats` method as a state transformer (a JavaScript method call
on `this` returns its value and the resulting object state). -/
def getStatsCall (s : Sys) : Stats × Sys := (getStats s, s)

/-- A wait-queue entry is well formed when it is a waiter reference to an
existing request whose phase is `queued`. -/
def entryOK (reqs : List Req) : PRef → Bool
  | PRef.waiter rid =>
      match reqs[rid]? with
      | some r => r.phase == Phase.queued
      | none => false
  | PRef.exec _ => false

/-- A request record is well formed when, while `running`, its timer
deadline is exactly its admission time plus its effective timeout. -/
def reqOK (maxRequestTime : Nat) (r : Req) : Bool :=
  match r.phase with
  | Phase.running =>
      match r.admitTime, r.deadline with
      | some ta, some dl => dl == ta + actualTimeout r.timeoutMs maxRequestTime
      | _, _ => false
  | _ => true

/-- The request ids referenced by the wait queue, in order. -/
def queueRids (q : List PRef) : List Nat :=
  q.filterMap (fun e => match e with
    | PRef.waiter rid => some rid
    | PRef.exec _ => none)

/-- The state invariant: every queue entry is a waiter for an existing
`queued`-phase request, every request record is internally consistent, and
no request is queued twice. -/
def WF (s : Sys) : Prop :=
  s.queue.all (entryOK s.reqs) = true
  ∧ s.reqs.all (reqOK s.maxRequestTime) = true
  ∧ (queueRids s.queue).Nodup

instance (s : Sys) : Decidable (WF s) := by
  unfold WF; infer_instance

/-- A concrete gate used to instantiate theorems: capacity 2, default
timeout 100, shutting down, one operation still running. -/
def sysShut : Sys :=
  { activeRequests := 1
    queue := []
    isShuttingDown := true
    maxConcurrent := 2
    maxRequestTime := 100
    reqs := [{ phase := Phase.running, timeoutMs := none, submitTime := 0,
               admitTime := some 0, deadline := some 100 }]
    now := 3 }

/-- Capacity 1: one operation admitted with a 50ms timeout; the timer
fires at t = 50; the abandoned operation settles afterwards. -/
def traceLate : List Event :=
  [Event.submit (some 50), Event.tick 50, Event.timeoutFire 0,
   Event.opSettle 0 true]

/-- Capacity 1: one operation admitted with a 40ms timeout; the timer
fires at t = 45; the abandoned operation then fails. -/
def traceNeg : List Event :=
  [Event.submit (some 40), Event.tick 45, Event.timeoutFire 0,
   Event.opSettle 0 false]

/-- Capacity 1: request 0 admitted with a 50ms timeout, request 1 queued
behind it; request 0's timer fires at t = 50. -/
def traceStrand : List Event :=
  [Event.submit (some 50), Event.submit none, Event.tick 50,
   Event.timeoutFire 0]

/-- The state `sysShut` after one call to `initiateShutdown`. -/
def sysShutOnce : Sys :=
  { sysShut with
    isShuttingDown := true
    reqs := drainReject sysShut.reqs sysShut.queue
    queue := [] }

/-- A concrete gate used to instantiate theorems: capacity 1, request 0
running with a 50ms timeout whose deadline (50) has passed (now = 60),
request 1 queued behind it. -/
def sysDue : Sys :=
  { activeRequests := 1
    queue := [PRef.waiter 1]
    isShuttingDown := false
    maxConcurrent := 1
    maxRequestTime := 100
    reqs := [{ phase := Phase.running, timeoutMs := some 50, submitTime := 0,
               admitTime := some 0, deadline := some 50 },
             { phase := Phase.queued, timeoutMs := none, submitTime := 0,
               admitTime := none, deadline := none }]
    now := 60 }

/-- C1: refuted by execution — after the timer of the single admitted
operation fires, `activeRequests` is back to 0 (first decrement, in the
timeout handler); when the abandoned operation later resolves, the
`finally` block decrements again, leaving `activeRequests = -1`: the slot
of one admitted operation was released twice, while the caller's outcome
stays the timeout error. -/
theorem inflight_double_decrement_on_late_completion :
    (runTrace (init 1 100) (List.take 3 traceLate)).map Sys.activeRequests = some 0
    ∧ (runTrace (init 1 100) traceLate).map Sys.activeRequests = some (-1)
    ∧ (runTrace (init 1 100) traceLate).bind (fun s => callerOutcome s 0)
        = some Outcome.timedOut := by
  refine ⟨rfl, rfl, rfl⟩

/-- C2: refuted by execution — after an admitted operation times out at
t = 45 and then fails at the operation level, the double decrement drives
`activeRequests` to -1, so `0 ≤ inFlight ≤ capacity` does not hold at
every instant. -/
theorem capacity_invariant_violated_below_zero :
    (runTrace (init 1 100) traceNeg).map
        (fun s => decide (0 ≤ s.activeRequests ∧ s.activeRequests ≤ (s.maxConcurrent : Int)))
      = some false := by
  refine rfl

/-- C3: refuted by execution — with capacity 1, request 0 running and
request 1 queued, request 0's timeout fires: the slot is freed
(`activeRequests` drops to 0) but request 1 is still sitting in the queue
in phase `queued`, its caller still pending: this freed slot promoted no
waiter (promotion only runs when the operation itself settles, in the
`finally` block). -/
theorem timeout_frees_slot_without_promotion :
    (runTrace (init 1 100) traceStrand).map
        (fun s => (s.activeRequests, s.queue, (s.reqs[1]?).map Req.phase, callerOutcome s 1))
      = some (0, [PRef.waiter 1], some Phase.queued, none) := by
  refine rfl

/-- C5: a `submit` arriving while `isShuttingDown` is true fails
immediately: the only change of state is the recording of the new call as
terminally `done gateClosed` (the `System is shutting down` error),
never admitted (`admitTime = none`, no timer); `activeRequests`, the wait
queue and every other field are untouched. -/
theorem submit_rejected_during_shutdown (s : Sys) (t : Option Nat)
    (h : s.isShuttingDown = true) :
    step s (Event.submit t) =
      some { s with reqs := s.reqs ++ [{ phase := Phase.done Outcome.gateClosed,
                                         timeoutMs := t, submitTime := s.now,
                                         admitTime := none, deadline := none }] } := by
  simp [step, h]

/-- Witness for C5 at the concrete state `sysShut`. -/
theorem submit_rejected_during_shutdown_witness :
    step sysShut (Event.submit none) =
      some { sysShut with reqs := sysShut.reqs ++ [{ phase := Phase.done Outcome.gateClosed,
                                                     timeoutMs := none, submitTime := 3,
                                                     admitTime := none, deadline := none }] } :=
  submit_rejected_during_shutdown sysShut none rfl

/-- C7: `initiateShutdown` is idempotent — after one call has produced
`s₁`, a second call returns `s₁` unchanged (its drain loop runs over the
already empty queue, so no waiter is rejected a second time and nothing
crashes), and `getStats` keeps reporting `isShuttingDown = true`. -/
theorem shutdown_idempotent (s s₁ : Sys)
    (h : step s Event.shutdown = some s₁) :
    step s₁ Event.shutdown = some s₁
    ∧ drainReject s₁.reqs s₁.queue = s₁.reqs
    ∧ (getStats s₁).isShuttingDown = true := by
  have h' : s₁ = { s with isShuttingDown := true,
                          reqs := drainReject s.reqs s.queue, queue := [] } := by
    simpa [step] using h.symm
  subst h'
  exact ⟨rfl, rfl, rfl⟩

/-- Witness for C7 at the concrete state `sysShut`. -/
theorem shutdown_idempotent_witness :
    step sysShutOnce Event.shutdown = some sysShutOnce :=
  (shutdown_idempotent sysShut sysShutOnce rfl).1

/-- C8: `getStats` is a pure read — the state component of the call is the
unchanged input state (every field of the gate is preserved), and the
returned record is exactly the current four counters. -/
theorem getStats_is_pure_read (s : Sys) :
    (getStatsCall s).2 = s
    ∧ (getStatsCall s).1.activeRequests = s.activeRequests
    ∧ (getStatsCall s).1.queueSize = s.queue.length
    ∧ (getStatsCall s).1.isShuttingDown = s.isShuttingDown
    ∧ (getStatsCall s).1.maxConcurrent = s.maxConcurrent :=
  ⟨rfl, rfl, rfl, rfl, rfl⟩

/-- C9: a falsy `timeoutMs` argument (`null`/omitted, or `0`) makes
`timeoutMs || this.maxRequestTime` substitute the default, so a zero or
falsy per-operation timeout is indistinguishable from an omitted one. -/
theorem falsy_timeout_uses_default (t : Option Nat) (d : Nat)
    (h : t = none ∨ t = some 0) :
    actualTimeout t d = actualTimeout none d ∧ actualTimeout t d = d := by
  rcases h with h | h <;> subst h <;> simp [actualTimeout]

/-- Witness for C9: an explicit `0` timeout with the source's default of
25000ms behaves as the omitted argument. -/
theorem falsy_timeout_uses_default_witness :
    actualTimeout (some 0) 25000 = actualTimeout none 25000
    ∧ actualTimeout (some 0) 25000 = 25000 :=
  falsy_timeout_uses_default (some 0) 25000 (Or.inr rfl)

/-- A successful indexed lookup bounds the index. -/
theorem lt_of_getElem?_eq_some {α : Type} {l : List α} {n : Nat} {a : α}
    (h : l[n]? = some a) : n < l.length := by
  rw [List.getElem?_eq_some] at h
  exact h.1

/-- Appending on the right does not change existing entries. -/
theorem getElem?_append_some {α : Type} {l : List α} {n : Nat} {a : α}
    (h : l[n]? = some a) (x : α) : (l ++ [x])[n]? = some a := by
  rw [List.getElem?_append, if_pos (lt_of_getElem?_eq_some h)]
  exact h

/-- A `findIdx?` search finds nothing when the predicate fails everywhere. -/
theorem findIdx?_eq_none_of_all_false {α : Type} (l : List α) (p : α → Bool)
    (h : ∀ e ∈ l, p e = false) : l.findIdx? p = none := by
  induction l with
  | nil => rfl
  | cons a rest ih =>
    have ha : p a = false := h a (List.mem_cons_self a rest)
    have hr := ih (fun e he => h e (List.mem_cons_of_mem a he))
    simp [List.findIdx?_cons, ha, hr]

/-- A well-formed waiter entry points at an existing `queued` request. -/
theorem entryOK_waiter {reqs : List Req} {rid : Nat}
    (h : entryOK reqs (PRef.waiter rid) = true) :
    (reqs[rid]?).map Req.phase = some Phase.queued := by
  simp only [entryOK] at h
  cases hr : reqs[rid]? with
  | none => rw [hr] at h; cases h
  | some r =>
    rw [hr] at h
    simp only [beq_iff_eq] at h
    simp [hr, h]

/-- In a well-formed queue, the timeout handler's search for the
execution promise's `resolve` finds nothing. -/
theorem findIdx?_exec_eq_none {q : List PRef} {reqs : List Req} (rid : Nat)
    (h : q.all (entryOK reqs) = true) :
    q.findIdx? (fun e => e == PRef.exec rid) = none := by
  apply findIdx?_eq_none_of_all_false
  intro e he
  have hok := List.all_eq_true.mp h e he
  cases e with
  | waiter r0 => simp
  | exec r0 => simp [entryOK] at hok

/-- Hence `removeExec` leaves a well-formed queue unchanged. -/
theorem removeExec_eq_self {q : List PRef} {reqs : List Req} (rid : Nat)
    (h : q.all (entryOK reqs) = true) : removeExec q rid = q := by
  unfold removeExec
  rw [findIdx?_exec_eq_none rid h]

/-- Rejecting the waiter of another request does not change this one. -/
theorem rejectWaiter_getElem?_ne (reqs : List Req) {rid0 rid : Nat}
    (hne : rid0 ≠ rid) : (rejectWaiter reqs rid0)[rid]? = reqs[rid]? := by
  unfold rejectWaiter
  cases h0 : reqs[rid0]? with
  | none => rfl
  | some r0 =>
    by_cases hq : r0.phase = Phase.queued
    · simp [hq, List.getElem?_set_ne hne]
    · simp [hq]

/-- Rejecting any waiter leaves a request that is not `queued` with its
exact old record. -/
theorem rejectWaiter_preserves_nonqueued (reqs : List Req) (rid0 : Nat)
    {rid : Nat} {r : Req} (hr : reqs[rid]? = some r)
    (hph : r.phase ≠ Phase.queued) :
    (rejectWaiter reqs rid0)[rid]? = some r := by
  by_cases hne : rid0 = rid
  · subst hne
    unfold rejectWaiter
    rw [hr]
    simp [hph, hr]
  · rw [rejectWaiter_getElem?_ne reqs hne]
    exact hr

/-- Rejecting the waiter of a `queued` request settles it with
`gateClosed`. -/
theorem rejectWaiter_sets {reqs : List Req} {rid : Nat} {r : Req}
    (hr : reqs[rid]? = some r) (hph : r.phase = Phase.queued) :
    (rejectWaiter reqs rid)[rid]? =
      some { r with phase := Phase.done Outcome.gateClosed } := by
  unfold rejectWaiter
  rw [hr]
  simp [hph, List.getElem?_set_eq_of_lt _ (lt_of_getElem?_eq_some hr)]

/-- The shutdown drain leaves every request that is not `queued` with its
exact old record (in particular, running operations are untouched). -/
theorem drainReject_preserves_nonqueued (q : List PRef) (reqs : List Req)
    {rid : Nat} {r : Req} (hr : reqs[rid]? = some r)
    (hph : r.phase ≠ Phase.queued) :
    (drainReject reqs q)[rid]? = some r := by
  induction q generalizing reqs with
  | nil => exact hr
  | cons e rest ih =>
    cases e with
    | waiter rid0 =>
      exact ih (rejectWaiter reqs rid0)
        (rejectWaiter_preserves_nonqueued reqs rid0 hr hph)
    | exec rid0 => exact ih reqs hr

/-- The shutdown drain rejects every queued request that has a waiter in
the queue: its phase becomes `done gateClosed`. -/
theorem drainReject_rejects (q : List PRef) (reqs : List Req) {rid : Nat}
    (hmem : PRef.waiter rid ∈ q)
    (hq : (reqs[rid]?).map Req.phase = some Phase.queued) :
    ((drainReject reqs q)[rid]?).map Req.phase
      = some (Phase.done Outcome.gateClosed) := by
  induction q generalizing reqs with
  | nil => cases hmem
  | cons e rest ih =>
    cases hr : reqs[rid]? with
    | none => rw [hr] at hq; cases hq
    | some r =>
      rw [hr] at hq
      replace hq : r.phase = Phase.queued := by simpa using hq
      cases e with
      | waiter rid0 =>
        by_cases heq : rid0 = rid
        · subst heq
          have hset := rejectWaiter_sets hr hq
          have hdone := drainReject_preserves_nonqueued rest
            (rejectWaiter reqs rid0) hset (by simp)
          show ((drainReject (rejectWaiter reqs rid0) rest)[rid0]?).map Req.phase
            = some (Phase.done Outcome.gateClosed)
          rw [hdone]
          rfl
        · have hmem' : PRef.waiter rid ∈ rest := by
            rcases List.mem_cons.mp hmem with h | h
            · cases h; exact absurd rfl heq
            · exact h
          have hq' : ((rejectWaiter reqs rid0)[rid]?).map Req.phase
              = some Phase.queued := by
            rw [rejectWaiter_getElem?_ne reqs heq, hr]
            simp [hq]
          exact ih (rejectWaiter reqs rid0) hmem' hq'
      | exec rid0 =>
        have hmem' : PRef.waiter rid ∈ rest := by
          rcases List.mem_cons.mp hmem with h | h
          · cases h
          · exact h
        have hq' : (reqs[rid]?).map Req.phase = some Phase.queued := by
          rw [hr]; simp [hq]
        exact ih reqs hmem' hq'

/-- Resolving any wait-queue entry leaves a settled (`done`) request
settled with the same outcome. -/
theorem resolveWaiterRef_preserves_done (reqs : List Req) (e : PRef)
    {rid : Nat} {o : Outcome}
    (h : (reqs[rid]?).map Req.phase = some (Phase.done o)) :
    ((resolveWaiterRef reqs e)[rid]?).map Req.phase = some (Phase.done o) := by
  cases e with
  | exec rid0 => exact h
  | waiter rid0 =>
    show ((match reqs[rid0]? with
            | some r =>
                if r.phase = Phase.queued then
                  reqs.set rid0 { r with phase := Phase.promoted }
                else reqs
            | none => reqs)[rid]?).map Req.phase = some (Phase.done o)
    cases h0 : reqs[rid0]? with
    | none => exact h
    | some r0 =>
      by_cases hq : r0.phase = Phase.queued
      · have hne : rid0 ≠ rid := by
          intro hcontra
          subst hcontra
          rw [h0] at h
          simp [hq] at h
        simp only [hq, if_pos]
        rw [List.getElem?_set_ne hne]
        exact h
      · simp only [hq, if_neg, ite_false]
        exact h

/-- Promotion leaves a settled request settled with the same outcome. -/
theorem promoteHead_preserves_done (s : Sys) {rid : Nat} {o : Outcome}
    (h : (s.reqs[rid]?).map Req.phase = some (Phase.done o)) :
    ((promoteHead s).reqs[rid]?).map Req.phase = some (Phase.done o) := by
  unfold promoteHead
  cases hq : s.queue with
  | nil => exact h
  | cons e rest => exact resolveWaiterRef_preserves_done s.reqs e h

/-- Inversion of a successful `timeoutFire` step. -/
theorem step_timeoutFire_inv (s s' : Sys) (rid : Nat)
    (h : step s (Event.timeoutFire rid) = some s') :
    ∃ r dl, s.reqs[rid]? = some r ∧ r.phase = Phase.running
      ∧ r.deadline = some dl ∧ dl ≤ s.now
      ∧ s' = { s with reqs := s.reqs.set rid { r with phase := Phase.timedOutPending }
                      activeRequests := s.activeRequests - 1
                      queue := removeExec s.queue rid } := by
  simp only [step] at h
  split at h
  next r hr =>
    split at h
    next dl hph hdl =>
      split at h
      next hnow =>
        exact ⟨r, dl, hr, hph, hdl, hnow, (Option.some.injEq _ _).mp h.symm⟩
      next => cases h
    next => cases h
  next => cases h

/-- Inversion of a successful `opSettle` step. -/
theorem step_opSettle_inv (s s' : Sys) (rid : Nat) (b : Bool)
    (h : step s (Event.opSettle rid b) = some s') :
    ∃ r, s.reqs[rid]? = some r
      ∧ ((r.phase = Phase.running
            ∧ s' = promoteHead
                { s with reqs := s.reqs.set rid
                           { r with phase := Phase.done (if b then Outcome.success else Outcome.failed) }
                         activeRequests := s.activeRequests - 1 })
         ∨ (r.phase = Phase.timedOutPending
            ∧ s' = promoteHead
                { s with reqs := s.reqs.set rid { r with phase := Phase.done Outcome.timedOut }
                         activeRequests := s.activeRequests - 1 })) := by
  simp only [step] at h
  split at h
  next r hr =>
    split at h
    next hph => exact ⟨r, hr, Or.inl ⟨hph, (Option.some.injEq _ _).mp h.symm⟩⟩
    next hph => exact ⟨r, hr, Or.inr ⟨hph, (Option.some.injEq _ _).mp h.symm⟩⟩
    next => cases h
  next => cases h

/-- Inversion of a successful `reenter` step. -/
theorem step_reenter_inv (s s' : Sys) (rid : Nat)
    (h : step s (Event.reenter rid) = some s') :
    ∃ r, s.reqs[rid]? = some r ∧ r.phase = Phase.promoted
      ∧ ((s' = { s with reqs := s.reqs.set rid { r with phase := Phase.done Outcome.gateClosed } })
         ∨ (s' = { s with reqs := s.reqs.set rid { r with phase := Phase.queued }
                          queue := s.queue ++ [PRef.waiter rid] })
         ∨ (s' = { s with reqs := s.reqs.set rid
                            { r with phase := Phase.running
                                     admitTime := some s.now
                                     deadline := some (s.now + actualTimeout r.timeoutMs s.maxRequestTime) }
                          activeRequests := s.activeRequests + 1 })) := by
  simp only [step] at h
  split at h
  next r hr =>
    split at h
    next hph =>
      split at h
      next => exact ⟨r, hr, hph, Or.inl ((Option.some.injEq _ _).mp h.symm)⟩
      next =>
        split at h
        next => exact ⟨r, hr, hph, Or.inr (Or.inl ((Option.some.injEq _ _).mp h.symm))⟩
        next => exact ⟨r, hr, hph, Or.inr (Or.inr ((Option.some.injEq _ _).mp h.symm))⟩
    next => cases h
  next => cases h

/-- Inversion of a `submit` step (always enabled). -/
theorem step_submit_inv (s s' : Sys) (t : Option Nat)
    (h : step s (Event.submit t) = some s') :
    ∃ x : Req, s'.reqs = s.reqs ++ [x] ∧ s'.now = s.now := by
  simp only [step] at h
  split at h
  next =>
    have h' := (Option.some.injEq _ _).mp h.symm
    subst h'
    exact ⟨_, rfl, rfl⟩
  next =>
    split at h
    next =>
      have h' := (Option.some.injEq _ _).mp h.symm
      subst h'
      exact ⟨_, rfl, rfl⟩
    next =>
      have h' := (Option.some.injEq _ _).mp h.symm
      subst h'
      exact ⟨_, rfl, rfl⟩

/-- Overwriting the record of a request whose phase differs leaves a
settled request settled with the same outcome. -/
theorem set_preserves_done {reqs : List Req} {rid rid' : Nat} {r' : Req}
    (x : Req) {o : Outcome}
    (h : (reqs[rid]?).map Req.phase = some (Phase.done o))
    (hr' : reqs[rid']? = some r') (hph' : r'.phase ≠ Phase.done o) :
    ((reqs.set rid' x)[rid]?).map Req.phase = some (Phase.done o) := by
  have hne : rid' ≠ rid := by
    intro hc
    subst hc
    rw [hr'] at h
    simp only [Option.map_some'] at h
    exact hph' (Option.some.inj h)
  rw [List.getElem?_set_ne hne]
  exact h

/-- A request settled with outcome `o` stays settled with outcome `o`
across every event: each transition guards on a non-`done` phase before
touching a record, and resolving or rejecting an already settled promise
is a no-op. -/
theorem done_phase_step (s s' : Sys) (e : Event) (rid : Nat) (o : Outcome)
    (h : step s e = some s')
    (hout : (s.reqs[rid]?).map Req.phase = some (Phase.done o)) :
    (s'.reqs[rid]?).map Req.phase = some (Phase.done o) := by
  cases e with
  | submit t =>
    obtain ⟨x, hx, -⟩ := step_submit_inv s s' t h
    rw [hx]
    cases hr : s.reqs[rid]? with
    | none => rw [hr] at hout; cases hout
    | some r =>
      rw [getElem?_append_some hr x]
      rw [hr] at hout
      exact hout
  | timeoutFire rid0 =>
    obtain ⟨r, dl, hr, hph, hdl, hnow, rfl⟩ := step_timeoutFire_inv s s' rid0 h
    exact set_preserves_done _ hout hr (by simp [hph])
  | opSettle rid0 b =>
    obtain ⟨r, hr, hc⟩ := step_opSettle_inv s s' rid0 b h
    rcases hc with ⟨hph, rfl⟩ | ⟨hph, rfl⟩
    · exact promoteHead_preserves_done _ (set_preserves_done _ hout hr (by simp [hph]))
    · exact promoteHead_preserves_done _ (set_preserves_done _ hout hr (by simp [hph]))
  | reenter rid0 =>
    obtain ⟨r, hr, hph, hc⟩ := step_reenter_inv s s' rid0 h
    rcases hc with rfl | rfl | rfl
    · exact set_preserves_done _ hout hr (by simp [hph])
    · exact set_preserves_done _ hout hr (by simp [hph])
    · exact set_preserves_done _ hout hr (by simp [hph])
  | shutdown =>
    have h' : s' = { s with isShuttingDown := true,
                            reqs := drainReject s.reqs s.queue, queue := [] } := by
      simpa [step] using h.symm
    subst h'
    cases hr : s.reqs[rid]? with
    | none => rw [hr] at hout; cases hout
    | some r =>
      rw [hr] at hout
      have hph : r.phase = Phase.done o := by simpa using hout
      show ((drainReject s.reqs s.queue)[rid]?).map Req.phase = some (Phase.done o)
      rw [drainReject_preserves_nonqueued s.queue s.reqs hr (by simp [hph])]
      simp [hph]
  | tick d =>
    have h' : s' = { s with now := s.now + d } := by simpa [step] using h.symm
    subst h'
    exact hout

/-- A settled request stays settled with the same outcome along every
trace of events. -/
theorem done_phase_runTrace (evs : List Event) (s s' : Sys) (rid : Nat)
    (o : Outcome) (h : runTrace s evs = some s')
    (hout : (s.reqs[rid]?).map Req.phase = some (Phase.done o)) :
    (s'.reqs[rid]?).map Req.phase = some (Phase.done o) := by
  induction evs generalizing s with
  | nil => cases h; exact hout
  | cons e rest ih =>
    simp only [runTrace] at h
    cases hs : step s e with
    | none => rw [hs] at h; cases h
    | some s1 =>
      rw [hs] at h
      exact ih s1 h (done_phase_step s s1 e rid o hs hout)

/-- The caller of a request in phase `done o` has received outcome `o`. -/
theorem callerOutcome_of_done {s : Sys} {rid : Nat} {o : Outcome}
    (h : (s.reqs[rid]?).map Req.phase = some (Phase.done o)) :
    callerOutcome s rid = some o := by
  cases hr : s.reqs[rid]? with
  | none => rw [hr] at h; cases h
  | some r =>
    rw [hr] at h
    have hph : r.phase = Phase.done o := by simpa using h
    simp [callerOutcome, hr, hph]

/-- A successful indexed lookup yields a member of the list. -/
theorem mem_of_getElem?_eq_some {α : Type} {l : List α} {n : Nat} {a : α}
    (h : l[n]? = some a) : a ∈ l := by
  rw [List.getElem?_eq_some] at h
  obtain ⟨hlt, hget⟩ := h
  exact hget ▸ l.getElem_mem hlt

/-- Forward characterization of a `timeoutFire` step: once the deadline
of a running request has passed, the timer callback is enabled and its
effect is to settle the caller with the timeout error, decrement
`activeRequests` and run the (vacuous) queue search. -/
theorem step_timeoutFire_eq (s : Sys) (rid : Nat) (r : Req) (dl : Nat)
    (hr : s.reqs[rid]? = some r) (hph : r.phase = Phase.running)
    (hdl : r.deadline = some dl) (hnow : dl ≤ s.now) :
    step s (Event.timeoutFire rid) =
      some { s with reqs := s.reqs.set rid { r with phase := Phase.timedOutPending }
                    activeRequests := s.activeRequests - 1
                    queue := removeExec s.queue rid } := by
  simp only [step, hr, hph, hdl]
  simp [hnow]

/-- C4: `initiateShutdown` sets the flag, leaves `activeRequests` alone,
empties the queue, keeps the exact record of every request that was not
queued (in particular every running or timed-out-pending operation, which
can still settle naturally afterwards), and settles every queued waiter
with `gateClosed` — permanently: along any later trace the rejected
waiter stays `gateClosed`, so it never acquires a slot. -/
theorem shutdown_rejects_queued_spares_inflight (s s' : Sys) (hwf : WF s)
    (h : step s Event.shutdown = some s') :
    s'.activeRequests = s.activeRequests
    ∧ s'.isShuttingDown = true
    ∧ s'.queue = []
    ∧ (∀ (rid : Nat) (r : Req), s.reqs[rid]? = some r → r.phase ≠ Phase.queued →
        s'.reqs[rid]? = some r)
    ∧ (∀ rid, PRef.waiter rid ∈ s.queue →
        callerOutcome s' rid = some Outcome.gateClosed)
    ∧ (∀ rid evs s2, PRef.waiter rid ∈ s.queue → runTrace s' evs = some s2 →
        callerOutcome s2 rid = some Outcome.gateClosed) := by
  have h' : s' = { s with isShuttingDown := true,
                          reqs := drainReject s.reqs s.queue, queue := [] } := by
    simpa [step] using h.symm
  subst h'
  have hqueued : ∀ rid, PRef.waiter rid ∈ s.queue →
      ((drainReject s.reqs s.queue)[rid]?).map Req.phase
        = some (Phase.done Outcome.gateClosed) := by
    intro rid hmem
    have hok := List.all_eq_true.mp hwf.1 _ hmem
    exact drainReject_rejects s.queue s.reqs hmem (entryOK_waiter hok)
  refine ⟨rfl, rfl, rfl, ?_, ?_, ?_⟩
  · intro rid r hr hph
    exact drainReject_preserves_nonqueued s.queue s.reqs hr hph
  · intro rid hmem
    exact callerOutcome_of_done (hqueued rid hmem)
  · intro rid evs s2 hmem htr
    exact callerOutcome_of_done
      (done_phase_runTrace evs _ s2 rid _ htr (hqueued rid hmem))

/-- Witness for C4 at the concrete state `sysDue` (request 0 running,
request 1 queued): shutdown keeps `activeRequests` and rejects request 1
with `gateClosed`. -/
theorem shutdown_rejects_queued_spares_inflight_witness :
    ({ sysDue with
       isShuttingDown := true
       reqs := drainReject sysDue.reqs sysDue.queue
       queue := [] } : Sys).activeRequests = sysDue.activeRequests
    ∧ callerOutcome { sysDue with
                      isShuttingDown := true
                      reqs := drainReject sysDue.reqs sysDue.queue
                      queue := [] } 1 = some Outcome.gateClosed := by
  have h := shutdown_rejects_queued_spares_inflight sysDue
    { sysDue with
      isShuttingDown := true
      reqs := drainReject sysDue.reqs sysDue.queue
      queue := [] } (by decide) rfl
  exact ⟨h.1, h.2.2.2.2.1 1 (by decide)⟩

/-- C6: for a running request (under the state invariant), the timer
deadline equals the admission time plus the effective timeout — the time
spent queued before admission is irrelevant — and the timer callback is
enabled exactly when that deadline has been reached; firing it settles
the caller with the timeout error and decrements `activeRequests`, which
a subsequent `getStats` reports as the freed slot. -/
theorem timeout_measured_from_admission (s : Sys) (rid : Nat) (r : Req)
    (hwf : WF s) (hr : s.reqs[rid]? = some r)
    (hrun : r.phase = Phase.running) :
    r.admitTime.isSome = true
    ∧ r.deadline = r.admitTime.map
        (fun ta => ta + actualTimeout r.timeoutMs s.maxRequestTime)
    ∧ (∀ ta, r.admitTime = some ta →
        ((step s (Event.timeoutFire rid)).isSome = true
          ↔ ta + actualTimeout r.timeoutMs s.maxRequestTime ≤ s.now))
    ∧ (∀ s', step s (Event.timeoutFire rid) = some s' →
        callerOutcome s' rid = some Outcome.timedOut
        ∧ (getStats s').activeRequests = s.activeRequests - 1) := by
  have hok : reqOK s.maxRequestTime r = true :=
    List.all_eq_true.mp hwf.2.1 r (mem_of_getElem?_eq_some hr)
  simp only [reqOK, hrun] at hok
  obtain ⟨ta, hta⟩ : ∃ ta, r.admitTime = some ta := by
    cases h0 : r.admitTime with
    | none => rw [h0] at hok; cases hok
    | some ta => exact ⟨ta, rfl⟩
  obtain ⟨dl, hdl⟩ : ∃ dl, r.deadline = some dl := by
    cases h0 : r.deadline with
    | none => rw [hta, h0] at hok; cases hok
    | some dl => exact ⟨dl, rfl⟩
  rw [hta, hdl] at hok
  have hdleq : dl = ta + actualTimeout r.timeoutMs s.maxRequestTime := by
    simpa using hok
  refine ⟨by simp [hta], by rw [hdl, hta, hdleq]; rfl, ?_, ?_⟩
  · intro ta' hta'
    have htae : ta' = ta := Option.some.inj (hta'.symm.trans hta)
    subst htae
    constructor
    · intro hsome
      obtain ⟨s', hs'⟩ := Option.isSome_iff_exists.mp hsome
      obtain ⟨r2, dl2, hr2, hph2, hdl2, hnow2, -⟩ :=
        step_timeoutFire_inv s s' rid hs'
      have hre : r2 = r := Option.some.inj (hr2.symm.trans hr)
      subst hre
      have hde : dl2 = dl := Option.some.inj (hdl2.symm.trans hdl)
      subst hde
      rw [hdleq] at hnow2
      exact hnow2
    · intro hnow
      rw [step_timeoutFire_eq s rid r dl hr hrun hdl (by rw [hdleq]; exact hnow)]
      rfl
  · intro s' hs'
    obtain ⟨r2, dl2, hr2, hph2, hdl2, hnow2, rfl⟩ :=
      step_timeoutFire_inv s s' rid hs'
    have hre : r2 = r := Option.some.inj (hr2.symm.trans hr)
    subst hre
    constructor
    · have hset : (s.reqs.set rid { r2 with phase := Phase.timedOutPending })[rid]?
          = some { r2 with phase := Phase.timedOutPending } :=
        List.getElem?_set_eq_of_lt _ (lt_of_getElem?_eq_some hr)
      simp [callerOutcome, hset]
    · rfl

/-- Witness for C6 at `sysDue`: the running request's admission time is
set, and its timer is enabled at now = 60 since admission time 0 plus the
50ms effective timeout has passed. -/
theorem timeout_measured_from_admission_witness :
    ({ phase := Phase.running, timeoutMs := some 50, submitTime := 0,
       admitTime := some 0, deadline := some 50 } : Req).admitTime.isSome = true
    ∧ ((step sysDue (Event.timeoutFire 0)).isSome = true
        ↔ 0 + actualTimeout (some 50) 100 ≤ 60) := by
  have h := timeout_measured_from_admission sysDue 0
    { phase := Phase.running, timeoutMs := some 50, submitTime := 0,
      admitTime := some 0, deadline := some 50 } (by decide) rfl rfl
  exact ⟨h.1, h.2.2.1 0 rfl⟩

/-- C10: when the timeout handler of request `rid` runs, its
`findIndex(req => req.resolve === resolve)` searches the wait queue for
the execution promise's `resolve`; a well-formed queue holds only waiter
promises, so the search misses (index -1, here `none`) and the queue
after the handler is identical to the queue before it ran. -/
theorem timeout_handler_preserves_queue (s s' : Sys) (rid : Nat)
    (hwf : WF s) (h : step s (Event.timeoutFire rid) = some s') :
    s.queue.findIdx? (fun e => e == PRef.exec rid) = none
    ∧ s'.queue = s.queue := by
  refine ⟨findIdx?_exec_eq_none rid hwf.1, ?_⟩
  obtain ⟨r, dl, hr, hph, hdl, hnow, rfl⟩ := step_timeoutFire_inv s s' rid h
  show removeExec s.queue rid = s.queue
  exact removeExec_eq_self rid hwf.1

/-- Witness for C10 at `sysDue`: with request 1's waiter queued, firing
request 0's timer finds no matching entry and leaves the queue as it
was. -/
theorem timeout_handler_preserves_queue_witness :
    sysDue.queue.findIdx? (fun e => e == PRef.exec 0) = none
    ∧ ({ sysDue with
         reqs := sysDue.reqs.set 0 { phase := Phase.timedOutPending, timeoutMs := some 50,
                                     submitTime := 0, admitTime := some 0, deadline := some 50 }
         activeRequests := sysDue.activeRequests - 1
         queue := removeExec sysDue.queue 0 } : Sys).queue = sysDue.queue := by
  exact timeout_handler_preserves_queue sysDue _ 0 (by decide) rfl
